import Mathlib

/-!
Verification of the MCQ generation-response parsing and validation pipeline
of `app.py` (JSON-first MCQ generation with robust parsing and fallbacks).

The pure core of the program is shallowly embedded here:
Python/JSON values become the inductive `JsonValue`; `json.loads` becomes the
executable fuel-based parser `json_loads`; `extract_json_substring`,
`_validate_mcq_list`, `call_perplexity_json` and the retry loop of
`Question_mcqs_generator` are translated function by function.  The network is
abstracted as a function from the attempt index to the outcome of one HTTP
call (the text returned, or the message of the RuntimeError raised).
-/

namespace App

/-- A JSON-like value as produced by Python's `json.loads`.  Numbers keep the
literal text of the numeral token: no claim inspects numeric values, only the
structure of values matters to the validator. -/
inductive JsonValue where
  | null
  | bool (b : Bool)
  | num (lit : String)
  | str (s : String)
  | arr (items : List JsonValue)
  | obj (fields : List (String × JsonValue))

/-- The left brace character, kept out of character-literal position. -/
def lbrace : Char := Char.ofNat 123

/-- The right brace character. -/
def rbrace : Char := Char.ofNat 125

/-- The whitespace characters Python's `str.strip()` removes (the ASCII ones;
the program only ever sees ASCII whitespace around questions and options). -/
def isSpaceChar (c : Char) : Bool :=
  c = ' ' || c = '\t' || c = '\n' || c = '\r' || c = '\x0b' || c = '\x0c'

/-- Python `str.strip()` on the underlying character list: drop whitespace
from the front, then from the back. -/
def stripChars (cs : List Char) : List Char :=
  List.rdropWhile isSpaceChar (List.dropWhile isSpaceChar cs)

/-- Python `str.strip()`. -/
def pyStrip (s : String) : String := String.mk (stripChars s.data)

/-- Python truthiness of a string: non-empty. -/
def strNonEmpty (s : String) : Bool := !s.data.isEmpty

/-- Python slicing `s[:n]` (`n ≥ 0`). -/
def strTake (n : Nat) (s : String) : String := String.mk (s.data.take n)

/-- Python slicing `s[n:]` (`n ≥ 0`). -/
def strDropN (n : Nat) (s : String) : String := String.mk (s.data.drop n)

/-- `dict.get` on the association list representing a JSON object. -/
def lookupField (fields : List (String × JsonValue)) (k : String) : Option JsonValue :=
  match fields with
  | [] => none
  | (k', v) :: rest => if k' = k then some v else lookupField rest k

/-- The whitespace skipped between JSON tokens (`json.loads` skips exactly
space, tab, newline and carriage return). -/
def isJsonWs (c : Char) : Bool :=
  c = ' ' || c = '\t' || c = '\n' || c = '\r'

/-- Skip inter-token whitespace. -/
def skipWs (cs : List Char) : List Char :=
  match cs with
  | [] => []
  | c :: rest => if isJsonWs c then skipWs rest else c :: rest

/-- Value of a hexadecimal digit. -/
def hexVal (c : Char) : Option Nat :=
  if '0' ≤ c ∧ c ≤ '9' then some (c.toNat - 48)
  else if 'a' ≤ c ∧ c ≤ 'f' then some (c.toNat - 87)
  else if 'A' ≤ c ∧ c ≤ 'F' then some (c.toNat - 55)
  else none

/-- Body of a JSON string literal, after the opening quote: accumulate
characters until the closing quote, decoding the standard escapes; raw
control characters are rejected as `json.loads` rejects them. -/
def parseStringBody : List Char → List Char → Except String (String × List Char)
  | [], _ => .error "Unterminated string"
  | c :: rest, acc =>
    if c = '"' then .ok (String.mk acc.reverse, rest)
    else if c = '\\' then
      match rest with
      | [] => .error "Unterminated string"
      | e :: rest2 =>
        if e = '"' then parseStringBody rest2 ('"' :: acc)
        else if e = '\\' then parseStringBody rest2 ('\\' :: acc)
        else if e = '/' then parseStringBody rest2 ('/' :: acc)
        else if e = 'b' then parseStringBody rest2 ('\x08' :: acc)
        else if e = 'f' then parseStringBody rest2 ('\x0c' :: acc)
        else if e = 'n' then parseStringBody rest2 ('\n' :: acc)
        else if e = 'r' then parseStringBody rest2 ('\r' :: acc)
        else if e = 't' then parseStringBody rest2 ('\t' :: acc)
        else if e = 'u' then
          match rest2 with
          | h1 :: h2 :: h3 :: h4 :: rest3 =>
            match hexVal h1, hexVal h2, hexVal h3, hexVal h4 with
            | some a, some b, some c2, some d =>
              parseStringBody rest3 (Char.ofNat (a * 4096 + b * 256 + c2 * 16 + d) :: acc)
            | _, _, _, _ => .error "Invalid hex escape"
          | _ => .error "Invalid hex escape"
        else .error "Invalid escape"
    else if c.toNat < 32 then .error "Invalid control character"
    else parseStringBody rest (c :: acc)

/-- Longest digit run at the front. -/
def digitSpan (cs : List Char) : List Char × List Char :=
  (cs.takeWhile Char.isDigit, cs.dropWhile Char.isDigit)

/-- The integer part of a JSON number: `0` or a nonzero digit followed by
digits (the grammar `json.loads` uses). -/
def parseIntPart (cs : List Char) : Option (List Char × List Char) :=
  match cs with
  | '0' :: rest => some (['0'], rest)
  | c :: rest =>
    if c.isDigit then
      let (ds, rest2) := digitSpan rest
      some (c :: ds, rest2)
    else none
  | [] => none

/-- Optional fraction part `.digits`; consumed only when at least one digit
follows the dot. -/
def parseFracPart (cs : List Char) : List Char × List Char :=
  match cs with
  | '.' :: rest =>
    match digitSpan rest with
    | ([], _) => ([], cs)
    | (ds, rest2) => ('.' :: ds, rest2)
  | _ => ([], cs)

/-- Optional exponent part `eE [+-] digits`; consumed only when well formed. -/
def parseExpPart (cs : List Char) : List Char × List Char :=
  match cs with
  | e :: rest =>
    if e = 'e' ∨ e = 'E' then
      match rest with
      | s :: rest2 =>
        if s = '+' ∨ s = '-' then
          match digitSpan rest2 with
          | ([], _) => ([], cs)
          | (ds, rest3) => (e :: s :: ds, rest3)
        else
          match digitSpan rest with
          | ([], _) => ([], cs)
          | (ds, rest3) => (e :: ds, rest3)
      | [] => ([], cs)
    else ([], cs)
  | [] => ([], cs)

/-- A JSON number token; the literal is preserved in the value. -/
def parseNumber (cs : List Char) : Except String (JsonValue × List Char) :=
  match cs with
  | '-' :: rest =>
    match parseIntPart rest with
    | some (ip, rest2) =>
      let (fp, rest3) := parseFracPart rest2
      let (ep, rest4) := parseExpPart rest3
      .ok (.num (String.mk (('-' :: ip) ++ fp ++ ep)), rest4)
    | none => .error "Expecting value"
  | _ =>
    match parseIntPart cs with
    | some (ip, rest2) =>
      let (fp, rest3) := parseFracPart rest2
      let (ep, rest4) := parseExpPart rest3
      .ok (.num (String.mk (ip ++ fp ++ ep)), rest4)
    | none => .error "Expecting value"

mutual

/-- One JSON value (recursive descent, fuel-based; the fuel passed by
`json_loads` is large enough for any input it is called on). -/
def parseValue : Nat → List Char → Except String (JsonValue × List Char)
  | 0, _ => .error "Nesting depth exceeded"
  | fuel + 1, cs =>
    match cs with
    | 'n' :: 'u' :: 'l' :: 'l' :: rest => .ok (.null, rest)
    | 't' :: 'r' :: 'u' :: 'e' :: rest => .ok (.bool true, rest)
    | 'f' :: 'a' :: 'l' :: 's' :: 'e' :: rest => .ok (.bool false, rest)
    | '"' :: rest =>
      match parseStringBody rest [] with
      | .ok (s, rest2) => .ok (.str s, rest2)
      | .error e => .error e
    | c :: rest =>
      if c = '[' then
        match skipWs rest with
        | ']' :: rest2 => .ok (.arr [], rest2)
        | other => parseArrayRest fuel other []
      else if c = lbrace then
        match skipWs rest with
        | c2 :: rest2 =>
          if c2 = rbrace then .ok (.obj [], rest2)
          else parseObjectRest fuel (c2 :: rest2) []
        | [] => .error "Expecting property name"
      else if c = '-' ∨ c.isDigit then parseNumber cs
      else .error "Expecting value"
    | [] => .error "Expecting value"

/-- Elements of a non-empty JSON array, after the opening bracket. -/
def parseArrayRest : Nat → List Char → List JsonValue → Except String (JsonValue × List Char)
  | 0, _, _ => .error "Nesting depth exceeded"
  | fuel + 1, cs, acc =>
    match parseValue fuel (skipWs cs) with
    | .error e => .error e
    | .ok (v, rest) =>
      match skipWs rest with
      | ',' :: rest2 => parseArrayRest fuel rest2 (acc ++ [v])
      | c :: rest2 =>
        if c = ']' then .ok (.arr (acc ++ [v]), rest2)
        else .error "Expecting comma delimiter"
      | [] => .error "Expecting comma delimiter"

/-- Members of a non-empty JSON object, after the opening brace. -/
def parseObjectRest : Nat → List Char → List (String × JsonValue) → Except String (JsonValue × List Char)
  | 0, _, _ => .error "Nesting depth exceeded"
  | fuel + 1, cs, acc =>
    match skipWs cs with
    | '"' :: rest =>
      match parseStringBody rest [] with
      | .error e => .error e
      | .ok (key, rest2) =>
        match skipWs rest2 with
        | ':' :: rest3 =>
          match parseValue fuel (skipWs rest3) with
          | .error e => .error e
          | .ok (v, rest4) =>
            match skipWs rest4 with
            | ',' :: rest5 => parseObjectRest fuel rest5 (acc ++ [(key, v)])
            | c :: rest5 =>
              if c = rbrace then .ok (.obj (acc ++ [(key, v)]), rest5)
              else .error "Expecting comma delimiter"
            | [] => .error "Expecting comma delimiter"
        | _ => .error "Expecting colon delimiter"
    | _ => .error "Expecting property name"

end

/-- `json.loads`: parse one JSON value and require only whitespace after it.
The `.error` result corresponds to `json.JSONDecodeError`. -/
def json_loads (s : String) : Except String JsonValue :=
  match parseValue (2 * s.data.length + 2) (skipWs s.data) with
  | .error e => .error e
  | .ok (v, rest) =>
    match skipWs rest with
    | [] => .ok v
    | _ => .error "Extra data"

/-- Index of the first occurrence of `c`. -/
def firstIndexOf (c : Char) : List Char → Option Nat
  | [] => none
  | x :: rest => if x = c then some 0 else (firstIndexOf c rest).map (· + 1)

/-- Index of the last occurrence of `c`. -/
def lastIndexOf (c : Char) : List Char → Option Nat
  | [] => none
  | x :: rest =>
    match lastIndexOf c rest with
    | some i => some (i + 1)
    | none => if x = c then some 0 else none

/-- The greedy DOTALL match of `a.*b`: the substring from the first `a` to the
last `b`, when the last `b` comes after the first `a`. -/
def spanBetween (a b : Char) (cs : List Char) : Option String :=
  match firstIndexOf a cs, lastIndexOf b cs with
  | some i, some j =>
    if i < j then some (String.mk ((cs.drop i).take (j - i + 1))) else none
  | _, _ => none

/-- `extract_json_substring`: the greedy regex search for `(\[.*\])` with
DOTALL, falling back to `(\{.*\})`. -/
def extract_json_substring (s : String) : Option String :=
  match spanBetween '[' ']' s.data with
  | some sub => some sub
  | none => spanBetween lbrace rbrace s.data

/-- The option letters, in the order the source iterates them. -/
def optionLetters : List String := ["A", "B", "C", "D"]

/-- The string held by an optional value, defaulting to `""`; used only where
the value is already known to be a string. -/
def strValOf : Option JsonValue → String
  | some (.str s) => s
  | _ => ""

/-- The check `corr not in ["A", "B", "C", "D"]`, negated: a Python value
equals one of those four only when it is that very string. -/
def isValidCorrect : Option JsonValue → Bool
  | some (.str c) => c == "A" || c == "B" || c == "C" || c == "D"
  | _ => false

/-- The per-letter loop of `_validate_mcq_list`: each letter must be present
in the options object as a string with non-empty `strip()`. -/
def checkOptions (i : Nat) (optFields : List (String × JsonValue)) : List String → Except String Unit
  | [] => .ok ()
  | k :: ks =>
    match lookupField optFields k with
    | some (.str s) =>
      if strNonEmpty (pyStrip s) then checkOptions i optFields ks
      else .error ("MCQ #" ++ toString i ++ " option '" ++ k ++ "' is missing or invalid.")
    | _ => .error ("MCQ #" ++ toString i ++ " option '" ++ k ++ "' is missing or invalid.")

/-- The clean record `_validate_mcq_list` appends on success: the stripped
question, the four stripped options in A,B,C,D insertion order, and the
`correct` value as it came in. -/
def cleanOf (q : String) (optFields : List (String × JsonValue)) (corr : JsonValue) : JsonValue :=
  .obj [("question", .str (pyStrip q)),
        ("options", .obj (optionLetters.map
          (fun k => (k, .str (pyStrip (strValOf (lookupField optFields k))))))),
        ("correct", corr)]

/-- Validation of element `i` of the candidate list, mirroring the checks of
`_validate_mcq_list` in source order. -/
def validateItem (i : Nat) (item : JsonValue) : Except String JsonValue :=
  match item with
  | .obj fields =>
    match lookupField fields "question" with
    | some (.str qs) =>
      if strNonEmpty qs then
        match lookupField fields "options" with
        | some (.obj optFields) =>
          match checkOptions i optFields optionLetters with
          | .ok _ =>
            if isValidCorrect (lookupField fields "correct") then
              .ok (cleanOf qs optFields ((lookupField fields "correct").getD .null))
            else .error ("MCQ #" ++ toString i ++ " 'correct' must be one of A/B/C/D.")
          | .error e => .error e
        | _ => .error ("MCQ #" ++ toString i ++ " 'options' is missing or not an object.")
      else .error ("MCQ #" ++ toString i ++ " missing 'question' or it is not a string.")
    | _ => .error ("MCQ #" ++ toString i ++ " missing 'question' or it is not a string.")
  | _ => .error ("MCQ #" ++ toString i ++ " is not an object.")

/-- The enumerated loop of `_validate_mcq_list`: the first invalid element
raises, otherwise the clean records accumulate in order. -/
def validateItems (i : Nat) : List JsonValue → Except String (List JsonValue)
  | [] => .ok []
  | item :: rest =>
    match validateItem i item with
    | .error e => .error e
    | .ok c =>
      match validateItems (i + 1) rest with
      | .error e => .error e
      | .ok cs => .ok (c :: cs)

/-- `_validate_mcq_list`: validate and normalize the candidate list, raising
`ValueError` (the `.error` case) on the first problem. -/
def _validate_mcq_list (mcqs : JsonValue) : Except String (List JsonValue) :=
  match mcqs with
  | .arr items => validateItems 0 items
  | _ => .error "MCQs is not a list."

/-- `isinstance(mcqs, list)`. -/
def isList : JsonValue → Bool
  | .arr _ => true
  | _ => false

/-- The suffix the source appends to an extraction failure message:
`"\nExtracted candidate:\n" + candidate[:2000]`. -/
def extractedSuffix (candidate : String) : String :=
  "\nExtracted candidate:\n" ++ strTake 2000 candidate

/-- The extraction branch of one attempt of `Question_mcqs_generator`: find a
JSON-looking substring, parse it and validate it; any exception inside this
branch becomes the `"JSON extraction/parse failed"` message, and the absence
of a candidate becomes `"No JSON found in API output."`. -/
def extractionOutcome (raw : String) : Except String (List JsonValue) :=
  match extract_json_substring raw with
  | some candidate =>
    match json_loads candidate with
    | .ok mcqs =>
      match _validate_mcq_list mcqs with
      | .ok validated => .ok validated
      | .error e => .error ("JSON extraction/parse failed: " ++ e ++ extractedSuffix candidate)
    | .error e => .error ("JSON extraction/parse failed: " ++ e ++ extractedSuffix candidate)
  | none => .error "No JSON found in API output."

/-- The parse-and-validate body of one attempt, given the raw text returned
by the API call.  `json.JSONDecodeError` from the direct parse selects the
extraction branch; every other exception (in particular the `ValueError`
raised when the top-level JSON is not a list, and validation errors) is
caught by the generic handler and becomes a `"Validation failed"` message. -/
def attemptOnce (raw : String) : Except String (List JsonValue) :=
  match json_loads raw with
  | .ok mcqs =>
    if isList mcqs then
      match _validate_mcq_list mcqs with
      | .ok validated => .ok validated
      | .error e => .error ("Validation failed: " ++ e)
    else .error "Validation failed: Top-level JSON is not a list."
  | .error _ => extractionOutcome raw

/-- One attempt given the outcome of the API call: a raised `RuntimeError`
(the `.error` case) is recorded as the last error verbatim, a returned text
goes through parsing and validation. -/
def attemptOutcome : Except String String → Except String (List JsonValue)
  | .error e => .error e
  | .ok raw => attemptOnce raw

/-- Python rendering of `last_error` inside the final f-string. -/
def renderLastErr : Option String → String
  | none => "None"
  | some e => e

/-- The attempt loop of `Question_mcqs_generator`: `remaining` attempts left,
`attempt` API calls made so far.  Returns the result together with the total
number of API calls performed. -/
def genLoop (client : String → Nat → Except String String) (prompt : String) :
    Nat → Nat → Option String → Except String (List JsonValue) × Nat
  | 0, attempt, lastErr =>
    (.error ("Failed to generate valid MCQs. Last error: " ++ renderLastErr lastErr), attempt)
  | r + 1, attempt, _ =>
    match attemptOutcome (client prompt attempt) with
    | .ok validated => (.ok validated, attempt + 1)
    | .error e => genLoop client prompt r (attempt + 1) (some e)

/-- The prompt built by `Question_mcqs_generator`, with the requested count
and the source text interpolated, then stripped. -/
def buildPrompt (num_questions : Nat) (input_text : String) : String :=
  pyStrip ("\nGenerate exactly " ++ toString num_questions
    ++ " multiple-choice questions (MCQs) based on the text provided below.\n\n**REQUIREMENTS (must follow exactly):**\n- Output only valid JSON (no surrounding text, no backticks, no commentary).\n- The top-level JSON MUST be an array of objects.\n- Each object must have:\n  - \"question\": string\n  - \"options\": \x7b\"A\":\"string\",\"B\":\"string\",\"C\":\"string\",\"D\":\"string\"\x7d  (all four keys present)\n  - \"correct\": one of \"A\",\"B\",\"C\",\"D\"\n- Example output format:\n[\n  \x7b\n    \"question\": \"Question text?\",\n    \"options\": \x7b\"A\":\"opt A\",\"B\":\"opt B\",\"C\":\"opt C\",\"D\":\"opt D\"\x7d,\n    \"correct\": \"B\"\n  \x7d,\n  ...\n]\n\nText to use for question generation:\n\"\"\""
    ++ input_text ++ "\n\"\"\"\n    ")

/-- `Question_mcqs_generator`: the retry orchestrator.  The network is
abstracted as `client prompt attempt`, the outcome of the API call on the
given attempt index: `.ok raw` is the text `call_perplexity_json` returned,
`.error msg` the message of the `RuntimeError` it raised.  The second
component of the result counts the API calls made. -/
def Question_mcqs_generator (client : String → Nat → Except String String)
    (input_text : String) (num_questions : Nat) (max_retries : Nat) :
    Except String (List JsonValue) × Nat :=
  genLoop client (buildPrompt num_questions input_text) (max_retries + 1) 0 none

/-- Outcomes of `call_perplexity_json`: a returned text, a raised
`RuntimeError`, or an exception that no handler in the function catches
(IndexError/AttributeError/TypeError from the defensive content access). -/
inductive ApiResult where
  | ok (text : String)
  | runtimeError (msg : String)
  | uncaught (msg : String)

/-- `Response.raise_for_status` raises exactly for status codes in
`[400, 600)`. -/
def statusRaises (status : Nat) : Bool :=
  decide (400 ≤ status) && decide (status < 600)

/-- The defensive content access
`data.get("choices", [{}])[0].get("message", {}).get("content")`:
the `.error` cases are the exceptions Python would raise, which no handler in
`call_perplexity_json` catches. -/
def extractContent (data : JsonValue) : Except String (Option JsonValue) :=
  match data with
  | .obj fields =>
    match (lookupField fields "choices").getD (.arr [.obj []]) with
    | .arr [] => .error "IndexError: list index out of range"
    | .arr (first :: _) =>
      match first with
      | .obj ffields =>
        match (lookupField ffields "message").getD (.obj []) with
        | .obj mfields => .ok (lookupField mfields "content")
        | _ => .error "AttributeError: get"
      | _ => .error "AttributeError: get"
    | _ => .error "TypeError: not subscriptable"
  | _ => .error "AttributeError: get"

/-- `call_perplexity_json`, over the outcome of the HTTP POST: `.error` is a
network-level `requests` exception, `.ok (status, body)` a response with its
status code and body text.  `resp.json()` is `json_loads` on the body; when
it fails the raw body text is returned (the `except ValueError` fallback),
and when the content path yields nothing the raw body text is returned as
well. -/
def call_perplexity_json (httpResult : Except String (Nat × String)) : ApiResult :=
  match httpResult with
  | .error e => .runtimeError ("API request failed: " ++ e)
  | .ok (status, body) =>
    if statusRaises status then
      .runtimeError ("API request failed: " ++ toString status ++ " Error")
    else
      match json_loads body with
      | .error _ => .ok body
      | .ok data =>
        match extractContent data with
        | .error ex => .uncaught ex
        | .ok none => .ok body
        | .ok (some (.str content)) => .ok (pyStrip content)
        | .ok (some _) => .uncaught "AttributeError: strip"

/-- Index of the first occurrence of `sep` as a sublist. -/
def findSubstrIdx (sep : List Char) : List Char → Option Nat
  | [] => none
  | c :: rest =>
    if sep.isPrefixOf (c :: rest) then some 0
    else (findSubstrIdx sep rest).map (· + 1)

/-- Python `str.split(sep)` for non-empty `sep`, fuel-based so it evaluates
in the kernel. -/
def splitOnFuel (sep : List Char) : Nat → List Char → List (List Char)
  | 0, cs => [cs]
  | fuel + 1, cs =>
    match findSubstrIdx sep cs with
    | none => [cs]
    | some i => cs.take i :: splitOnFuel sep fuel (cs.drop (i + sep.length))

/-- Python `s.split(sep)`. -/
def strSplitOn (sep : String) (s : String) : List String :=
  (splitOnFuel sep.data (s.data.length + 1) s.data).map String.mk

/-- Python `s.startswith(pre)`. -/
def strStartsWith (pre s : String) : Bool := pre.data.isPrefixOf s.data

/-- Modelled from the spec: the legacy delimited-block strategy of §4.3 is
not present in `src/app.py` (the updated source is JSON-first); the block
marker is described there only as "a fixed marker", modelled here as the
`## MCQ` heading the prompt's legacy shape uses. -/
def legacyMarker : String := "## MCQ"

/-- Modelled from the spec: an MCQ record produced by the legacy strategy. -/
structure LegacyMcq where
  question : String
  optionA : String
  optionB : String
  optionC : String
  optionD : String
  correct : String
deriving DecidableEq

/-- Modelled from the spec: the first line starting with `marker`, giving the
trimmed text after the marker. -/
def lineValueAfter (marker : String) : List String → Option String
  | [] => none
  | l :: rest =>
    if strStartsWith marker l then some (pyStrip (strDropN marker.data.length l))
    else lineValueAfter marker rest

/-- Modelled from the spec: parse one delimited block; requires the
`Question:` line, the four option lines `A)`–`D)`, and a
`Correct Answer: <Letter>` line with a letter in A–D, otherwise the block
yields nothing. -/
def parseLegacyBlock (block : String) : Option LegacyMcq :=
  let lines := strSplitOn "\n" block
  match lineValueAfter "Question:" lines, lineValueAfter "A)" lines,
        lineValueAfter "B)" lines, lineValueAfter "C)" lines,
        lineValueAfter "D)" lines, lineValueAfter "Correct Answer:" lines with
  | some q, some a, some b, some c, some d, some corr =>
    if corr == "A" || corr == "B" || corr == "C" || corr == "D" then
      some ⟨q, a, b, c, d, corr⟩
    else none
  | _, _, _, _, _, _ => none

/-- Modelled from the spec: the legacy strategy splits the raw text on the
block marker and parses each non-empty block, silently skipping blocks that
do not yield a record. -/
def legacy_parse (raw : String) : List LegacyMcq :=
  ((strSplitOn legacyMarker raw).filter (fun b => strNonEmpty (pyStrip b))).filterMap
    parseLegacyBlock

/-- The options loop condition as a predicate on the options object: each
letter of `ks` is present as a string whose `strip()` is non-empty. -/
def wellFormedOptions (optFields : List (String × JsonValue)) : List String → Bool
  | [] => true
  | k :: ks =>
    match lookupField optFields k with
    | some (.str s) => strNonEmpty (pyStrip s) && wellFormedOptions optFields ks
    | _ => false

/-- A well-formed incoming MCQ record: a key-value record with a non-empty
string `question`, an `options` record with non-empty post-trim strings for
all four letters, and `correct` one of the four letters. -/
def wellFormedItem : JsonValue → Bool
  | .obj fields =>
    (match lookupField fields "question" with
     | some (.str q) => strNonEmpty q
     | _ => false) &&
    (match lookupField fields "options" with
     | some (.obj optFields) => wellFormedOptions optFields optionLetters
     | _ => false) &&
    isValidCorrect (lookupField fields "correct")
  | _ => false

/-- An invalid candidate element: not a record, missing or non-string
question, missing or empty post-trim option for some letter, or `correct`
outside the four letters. -/
def invalidItem : JsonValue → Bool
  | .obj fields =>
    (match lookupField fields "question" with
     | some (.str _) => false
     | _ => true) ||
    (optionLetters.any (fun k =>
      match lookupField fields "options" with
      | some (.obj optFields) =>
        match lookupField optFields k with
        | some (.str s) => !strNonEmpty (pyStrip s)
        | _ => true
      | _ => true)) ||
    !isValidCorrect (lookupField fields "correct")
  | _ => true

/-- A string equal to its own `strip()`. -/
def trimmedStr (s : String) : Bool := pyStrip s == s

/-- The output invariant exactly as the claim states it: non-empty trimmed
question, exactly the four option letters in A,B,C,D insertion order with
non-empty trimmed values, and `correct` one of the letters. -/
def mcqRecordInvariantClaimed : JsonValue → Bool
  | .obj [("question", .str q),
          ("options", .obj [("A", .str a), ("B", .str b), ("C", .str c), ("D", .str d)]),
          ("correct", .str corr)] =>
    strNonEmpty q && trimmedStr q &&
    (strNonEmpty a && trimmedStr a) && (strNonEmpty b && trimmedStr b) &&
    (strNonEmpty c && trimmedStr c) && (strNonEmpty d && trimmedStr d) &&
    (corr == "A" || corr == "B" || corr == "C" || corr == "D")
  | _ => false

/-- The output invariant the code actually guarantees: as claimed, except
that the question is only trimmed, not necessarily non-empty. -/
def mcqRecordInvariantActual : JsonValue → Bool
  | .obj [("question", .str q),
          ("options", .obj [("A", .str a), ("B", .str b), ("C", .str c), ("D", .str d)]),
          ("correct", .str corr)] =>
    trimmedStr q &&
    (strNonEmpty a && trimmedStr a) && (strNonEmpty b && trimmedStr b) &&
    (strNonEmpty c && trimmedStr c) && (strNonEmpty d && trimmedStr d) &&
    (corr == "A" || corr == "B" || corr == "C" || corr == "D")
  | _ => false

/-- A clean record whose question survives a second truthiness check. -/
def recordQuestionNonEmpty : JsonValue → Bool
  | .obj (("question", .str q) :: _) => strNonEmpty q
  | _ => false

/-- The normalization `_validate_mcq_list` applies to a (well-formed)
element, as a total function. -/
def cleanItem (item : JsonValue) : JsonValue :=
  match item with
  | .obj fields =>
    cleanOf (strValOf (lookupField fields "question"))
            (match lookupField fields "options" with
             | some (.obj optFields) => optFields
             | _ => [])
            ((lookupField fields "correct").getD .null)
  | _ => .null

/-- A valid options object used by the concrete instances below. -/
def goodOptions : JsonValue :=
  .obj [("A", .str "a"), ("B", .str "b"), ("C", .str "c"), ("D", .str "d")]

/-- A candidate whose question is whitespace only: a non-empty string, so
validation accepts it, but its normalized form is empty. -/
def blankQuestionItem : JsonValue :=
  .obj [("question", .str " "), ("options", goodOptions), ("correct", .str "A")]

/-- The normalized record the validator returns for `blankQuestionItem`. -/
def blankQuestionOut : JsonValue :=
  .obj [("question", .str ""), ("options", goodOptions), ("correct", .str "A")]

/-- A well-formed candidate with whitespace to normalize. -/
def paddedItem : JsonValue :=
  .obj [("question", .str " What? "),
        ("options", .obj [("A", .str " x"), ("B", .str "y "), ("C", .str " z "), ("D", .str "w")]),
        ("correct", .str "B")]

/-- An element whose `correct` field is outside A–D. -/
def badCorrectItem : JsonValue :=
  .obj [("question", .str "ok"), ("options", goodOptions), ("correct", .str "E")]

/-- A raw response that parses as JSON whose top level is an object, with a
fully valid MCQ array embedded inside it. -/
def wrappedArrayRaw : String :=
  "\x7b\"wrap\": [\x7b\"question\": \"Q1?\", \"options\": \x7b\"A\": \"a\", \"B\": \"b\", \"C\": \"c\", \"D\": \"d\"\x7d, \"correct\": \"A\"\x7d]\x7d"

/-- The value `json.loads` gives for `wrappedArrayRaw`. -/
def wrappedParsed : JsonValue :=
  .obj [("wrap", .arr [.obj [("question", .str "Q1?"), ("options", goodOptions),
    ("correct", .str "A")]])]

/-- The validated record the extraction strategy recovers from
`wrappedArrayRaw`. -/
def wrappedArrayClean : JsonValue :=
  .obj [("question", .str "Q1?"), ("options", goodOptions), ("correct", .str "A")]

/-- A client outcome function that fails its first call with a transport
error and then returns an empty MCQ array. -/
def flakyClient : String → Nat → Except String String :=
  fun _ i => if i = 0 then .error "boom" else .ok "[]"

/-- Modelled from the spec: two delimited blocks, the second missing its
`Correct Answer:` line. -/
def legacySampleTwoBlocks : String :=
  "## MCQ\nQuestion: What is 2+2?\nA) 3\nB) 4\nC) 5\nD) 6\nCorrect Answer: B\n## MCQ\nQuestion: Incomplete?\nA) 1\nB) 2\nC) 3\nD) 4\n"

/-- A prefix shares the head of the longer list. -/
theorem prefix_get_zero {α : Type} {l₁ l : List α} (h : l₁ <+: l)
    (hl : 0 < l₁.length) (hl2 : 0 < l.length) : l₁.get ⟨0, hl⟩ = l.get ⟨0, hl2⟩ := by
  obtain ⟨t, rfl⟩ := h
  cases l₁ with
  | nil => simp at hl
  | cons a ys => rfl

/-- A stripped character list has no leading whitespace left. -/
theorem stripChars_dropWhile (cs : List Char) :
    List.dropWhile isSpaceChar (stripChars cs) = stripChars cs := by
  rw [stripChars, List.dropWhile_eq_self_iff]
  intro hl
  have hpre := List.rdropWhile_prefix isSpaceChar (List.dropWhile isSpaceChar cs)
  have hlen : 0 < (List.dropWhile isSpaceChar cs).length := by
    obtain ⟨t, ht⟩ := hpre
    rw [← ht, List.length_append]
    exact Nat.lt_of_lt_of_le hl (Nat.le_add_right _ _)
  rw [prefix_get_zero hpre hl hlen]
  exact List.dropWhile_get_zero_not isSpaceChar cs hlen

/-- Python's `strip` is idempotent on character lists. -/
theorem stripChars_idem (cs : List Char) : stripChars (stripChars cs) = stripChars cs := by
  conv_lhs => rw [stripChars, stripChars_dropWhile, stripChars]
  exact List.rdropWhile_idempotent _ _

/-- Python's `strip` is idempotent. -/
theorem pyStrip_idem (s : String) : pyStrip (pyStrip s) = pyStrip s := by
  simp only [pyStrip, stripChars_idem]

/-- A well-formed options object passes the per-letter validation loop. -/
theorem wellFormedOptions_checkOptions (i : Nat) (o : List (String × JsonValue)) :
    ∀ ks, wellFormedOptions o ks = true → checkOptions i o ks = .ok () := by
  intro ks
  induction ks with
  | nil => intro _; rfl
  | cons k ks ih =>
    intro h
    simp only [wellFormedOptions] at h
    split at h
    · rename_i s heq
      rw [Bool.and_eq_true] at h
      simp only [checkOptions, heq, h.1, if_true]
      exact ih h.2
    · cases h

/-- What passing the per-letter loop says about each letter. -/
theorem checkOptions_mem (i : Nat) (o : List (String × JsonValue)) :
    ∀ ks, checkOptions i o ks = .ok () →
      ∀ k ∈ ks, ∃ s, lookupField o k = some (.str s) ∧ strNonEmpty (pyStrip s) = true := by
  intro ks
  induction ks with
  | nil => intro _ k hk; cases hk
  | cons k0 ks ih =>
    intro h k hk
    simp only [checkOptions] at h
    split at h
    · rename_i s heq
      split at h
      · rename_i hs
        rcases List.mem_cons.mp hk with hk | hk
        · exact hk ▸ ⟨s, heq, hs⟩
        · exact ih h k hk
      · cases h
    · cases h

/-- A well-formed element validates to its normalization. -/
theorem validateItem_of_wellFormed (i : Nat) (item : JsonValue)
    (h : wellFormedItem item = true) : validateItem i item = .ok (cleanItem item) := by
  cases item with
  | obj fields =>
    simp only [wellFormedItem, Bool.and_eq_true] at h
    obtain ⟨⟨hq, ho⟩, hc⟩ := h
    split at hq
    · rename_i qs heq
      split at ho
      · rename_i optFields heqo
        have hco := wellFormedOptions_checkOptions i optFields optionLetters ho
        simp only [validateItem, heq, hq, heqo, hco, hc, if_true, cleanItem, strValOf]
      · cases ho
    · cases hq
  | null => cases h
  | bool b => cases h
  | num l => cases h
  | str s => cases h
  | arr l => cases h

/-- Well-formed lists validate elementwise, preserving order. -/
theorem validateItems_of_wellFormed :
    ∀ (items : List JsonValue) (i : Nat), items.all wellFormedItem = true →
      validateItems i items = .ok (items.map cleanItem) := by
  intro items
  induction items with
  | nil => intro i _; rfl
  | cons x xs ih =>
    intro i h
    rw [List.all_cons, Bool.and_eq_true] at h
    simp only [validateItems, validateItem_of_wellFormed i x h.1, ih (i + 1) h.2, List.map]

/-- C1: for every candidate list of well-formed MCQ records, the validator
succeeds and returns exactly as many normalized records as it was given, in
the input order (the output is the elementwise normalization of the input). -/
theorem mcq_C1_validator_accepts_wellformed (items : List JsonValue)
    (h : items.all wellFormedItem = true) :
    _validate_mcq_list (.arr items) = .ok (items.map cleanItem) ∧
      (items.map cleanItem).length = items.length := by
  exact ⟨validateItems_of_wellFormed items 0 h, by simp⟩

/-- Witness for C1 at a concrete one-element well-formed list. -/
theorem mcq_C1_witness :
    ([paddedItem].all wellFormedItem = true) ∧
      (_validate_mcq_list (.arr [paddedItem]) = .ok ([paddedItem].map cleanItem) ∧
        ([paddedItem].map cleanItem).length = [paddedItem].length) :=
  ⟨rfl, mcq_C1_validator_accepts_wellformed [paddedItem] rfl⟩

/-- What a successful per-element validation says about the element and its
normalization. -/
theorem validateItem_ok_inv {i : Nat} {item c : JsonValue}
    (h : validateItem i item = .ok c) :
    ∃ fields qs optFields corr,
      item = .obj fields ∧
      lookupField fields "question" = some (.str qs) ∧ strNonEmpty qs = true ∧
      lookupField fields "options" = some (.obj optFields) ∧
      checkOptions i optFields optionLetters = .ok () ∧
      lookupField fields "correct" = some (.str corr) ∧
      (corr == "A" || corr == "B" || corr == "C" || corr == "D") = true ∧
      c = cleanOf qs optFields (.str corr) := by
  cases item with
  | obj fields =>
    simp only [validateItem] at h
    split at h
    · rename_i qs heq
      split at h
      · rename_i hq
        split at h
        · rename_i optFields heqo
          split at h
          · rename_i u hco
            split at h
            · rename_i hiv
              cases hcl : lookupField fields "correct" with
              | none => rw [hcl] at hiv; simp [isValidCorrect] at hiv
              | some w =>
                cases w with
                | str corr =>
                  rw [hcl] at hiv h
                  simp only [isValidCorrect] at hiv
                  simp only [Option.getD, Except.ok.injEq] at h
                  exact ⟨fields, qs, optFields, corr, rfl, heq, hq, heqo,
                    by cases u; exact hco, hcl, hiv, h.symm⟩
                | null => rw [hcl] at hiv; simp [isValidCorrect] at hiv
                | bool b => rw [hcl] at hiv; simp [isValidCorrect] at hiv
                | num l => rw [hcl] at hiv; simp [isValidCorrect] at hiv
                | arr l => rw [hcl] at hiv; simp [isValidCorrect] at hiv
                | obj f => rw [hcl] at hiv; simp [isValidCorrect] at hiv
            · exact Except.noConfusion h
          · exact Except.noConfusion h
        · exact Except.noConfusion h
      · exact Except.noConfusion h
    · exact Except.noConfusion h
  | null => exact Except.noConfusion h
  | bool b => exact Except.noConfusion h
  | num l => exact Except.noConfusion h
  | str s => exact Except.noConfusion h
  | arr l => exact Except.noConfusion h

/-- Each letter of a validated element has a usable option string. -/
theorem checkOptions_letter {i : Nat} {o : List (String × JsonValue)} (k : String)
    (hco : checkOptions i o optionLetters = .ok ()) (hk : k ∈ optionLetters) :
    ∃ s, lookupField o k = some (.str s) ∧ strNonEmpty (pyStrip s) = true :=
  checkOptions_mem i o optionLetters hco k hk

/-- The normalization of a successfully validated element satisfies the
output invariant the code actually guarantees. -/
theorem cleanOf_invariant {i : Nat} {item c : JsonValue}
    (h : validateItem i item = .ok c) : mcqRecordInvariantActual c = true := by
  obtain ⟨fields, qs, optFields, corr, _, _, _, _, hco, _, hcb, rfl⟩ := validateItem_ok_inv h
  obtain ⟨sa, hA1, hA2⟩ := checkOptions_letter "A" hco (by simp [optionLetters])
  obtain ⟨sb, hB1, hB2⟩ := checkOptions_letter "B" hco (by simp [optionLetters])
  obtain ⟨sc, hC1, hC2⟩ := checkOptions_letter "C" hco (by simp [optionLetters])
  obtain ⟨sd, hD1, hD2⟩ := checkOptions_letter "D" hco (by simp [optionLetters])
  simp only [cleanOf, optionLetters, List.map, hA1, hB1, hC1, hD1, strValOf]
  simp [mcqRecordInvariantActual, trimmedStr, pyStrip_idem, hA2, hB2, hC2, hD2, hcb]

/-- Every record of a successful validation satisfies the actual output
invariant. -/
theorem validateItems_ok_all_inv :
    ∀ (items : List JsonValue) (i : Nat) (out : List JsonValue),
      validateItems i items = .ok out → out.all mcqRecordInvariantActual = true := by
  intro items
  induction items with
  | nil =>
    intro i out h
    simp only [validateItems, Except.ok.injEq] at h
    rw [← h]
    rfl
  | cons x xs ih =>
    intro i out h
    simp only [validateItems] at h
    split at h
    · exact Except.noConfusion h
    · rename_i c hc
      split at h
      · exact Except.noConfusion h
      · rename_i cs hcs
        simp only [Except.ok.injEq] at h
        rw [← h, List.all_cons, Bool.and_eq_true]
        exact ⟨cleanOf_invariant hc, ih (i + 1) cs hcs⟩

/-- C2 counterexample: a whitespace-only question is a non-empty string, so
the validator accepts it, but the returned record's question is empty after
normalization, violating the claimed non-empty-question output invariant. -/
theorem mcq_C2_counterexample :
    _validate_mcq_list (.arr [blankQuestionItem]) = .ok [blankQuestionOut] ∧
      mcqRecordInvariantClaimed blankQuestionOut = false :=
  ⟨rfl, rfl⟩

/-- C2 (amended): every record returned by a successful validation has a
trimmed (possibly empty) question, exactly the four option letters in
A,B,C,D insertion order with non-empty trimmed values, and a correct field
among the four letters. -/
theorem mcq_C2_amended_output_invariant (v : JsonValue) (out : List JsonValue)
    (h : _validate_mcq_list v = .ok out) :
    out.all mcqRecordInvariantActual = true := by
  cases v with
  | arr items => exact validateItems_ok_all_inv items 0 out h
  | null => exact Except.noConfusion h
  | bool b => exact Except.noConfusion h
  | num l => exact Except.noConfusion h
  | str s => exact Except.noConfusion h
  | obj f => exact Except.noConfusion h

/-- Witness for the amended C2 at a concrete successful validation. -/
theorem mcq_C2_witness : [blankQuestionOut].all mcqRecordInvariantActual = true :=
  mcq_C2_amended_output_invariant (.arr [blankQuestionItem]) [blankQuestionOut] rfl

/-- A successfully validated element is not invalid in the claim's sense. -/
theorem validateItem_ok_not_invalid {i : Nat} {item c : JsonValue}
    (h : validateItem i item = .ok c) : invalidItem item = false := by
  obtain ⟨fields, qs, optFields, corr, rfl, hql, _, hol, hco, hcl, hcb, _⟩ :=
    validateItem_ok_inv h
  obtain ⟨sa, hA1, hA2⟩ := checkOptions_letter "A" hco (by simp [optionLetters])
  obtain ⟨sb, hB1, hB2⟩ := checkOptions_letter "B" hco (by simp [optionLetters])
  obtain ⟨sc, hC1, hC2⟩ := checkOptions_letter "C" hco (by simp [optionLetters])
  obtain ⟨sd, hD1, hD2⟩ := checkOptions_letter "D" hco (by simp [optionLetters])
  simp [invalidItem, hql, hol, hcl, optionLetters, hA1, hA2, hB1, hB2, hC1, hC2,
    hD1, hD2, isValidCorrect, hcb]

/-- A successful validation implies no element was invalid. -/
theorem validateItems_ok_no_invalid :
    ∀ (items : List JsonValue) (i : Nat) (out : List JsonValue),
      validateItems i items = .ok out → items.any invalidItem = false := by
  intro items
  induction items with
  | nil => intro i out _; rfl
  | cons x xs ih =>
    intro i out h
    simp only [validateItems] at h
    split at h
    · exact Except.noConfusion h
    · rename_i c hc
      split at h
      · exact Except.noConfusion h
      · rename_i cs hcs
        rw [List.any_cons, Bool.or_eq_false_iff]
        exact ⟨validateItem_ok_not_invalid hc, ih (i + 1) cs hcs⟩

/-- C4: validation is all-or-nothing — a candidate list containing at least
one invalid element makes the whole call fail with a validation error; no
partial list of the valid elements is returned. -/
theorem mcq_C4_all_or_nothing (items : List JsonValue)
    (h : items.any invalidItem = true) :
    ∃ e, _validate_mcq_list (.arr items) = .error e := by
  cases hv : _validate_mcq_list (.arr items) with
  | error e => exact ⟨e, rfl⟩
  | ok out =>
    have hno : items.any invalidItem = false := validateItems_ok_no_invalid items 0 out hv
    rw [hno] at h
    exact Bool.noConfusion h

/-- Witness for C4: one valid element followed by one invalid element. -/
theorem mcq_C4_witness :
    ([paddedItem, badCorrectItem].any invalidItem = true) ∧
      ∃ e, _validate_mcq_list (.arr [paddedItem, badCorrectItem]) = .error e :=
  ⟨rfl, mcq_C4_all_or_nothing [paddedItem, badCorrectItem] rfl⟩

/-- Re-validating a normalized record whose question is still non-empty
returns it unchanged, at any position. -/
theorem validateItem_clean_fixed {i : Nat} {item c : JsonValue} (j : Nat)
    (h : validateItem i item = .ok c) (hqn : recordQuestionNonEmpty c = true) :
    validateItem j c = .ok c := by
  obtain ⟨fields, qs, optFields, corr, _, _, _, _, hco, _, hcb, rfl⟩ := validateItem_ok_inv h
  obtain ⟨sa, hA1, hA2⟩ := checkOptions_letter "A" hco (by simp [optionLetters])
  obtain ⟨sb, hB1, hB2⟩ := checkOptions_letter "B" hco (by simp [optionLetters])
  obtain ⟨sc, hC1, hC2⟩ := checkOptions_letter "C" hco (by simp [optionLetters])
  obtain ⟨sd, hD1, hD2⟩ := checkOptions_letter "D" hco (by simp [optionLetters])
  simp only [cleanOf, optionLetters, List.map, hA1, hB1, hC1, hD1, strValOf] at hqn ⊢
  simp only [recordQuestionNonEmpty] at hqn
  simp [validateItem, lookupField, checkOptions, cleanOf, optionLetters, strValOf,
    Option.getD, hqn, pyStrip_idem, hA2, hB2, hC2, hD2, isValidCorrect, hcb]

/-- Re-validating a successful validation's whole output returns it
unchanged, when every output question is non-empty. -/
theorem validateItems_fixed :
    ∀ (items : List JsonValue) (i : Nat) (out : List JsonValue),
      validateItems i items = .ok out → out.all recordQuestionNonEmpty = true →
      ∀ j, validateItems j out = .ok out := by
  intro items
  induction items with
  | nil =>
    intro i out h _ j
    simp only [validateItems, Except.ok.injEq] at h
    rw [← h]
    rfl
  | cons x xs ih =>
    intro i out h hall j
    simp only [validateItems] at h
    split at h
    · exact Except.noConfusion h
    · rename_i c hc
      split at h
      · exact Except.noConfusion h
      · rename_i cs hcs
        simp only [Except.ok.injEq] at h
        subst h
        rw [List.all_cons, Bool.and_eq_true] at hall
        simp only [validateItems, validateItem_clean_fixed j hc hall.1,
          ih (i + 1) cs hcs hall.2 (j + 1)]

/-- C8 counterexample: normalization is not a fixed point of the validator
in general — the whitespace-only question validates once (question `" "` is
a non-empty string) but its normalized form `""` fails the second
validation, so applying the validator to its own output errors. -/
theorem mcq_C8_counterexample :
    _validate_mcq_list (.arr [blankQuestionItem]) = .ok [blankQuestionOut] ∧
      _validate_mcq_list (.arr [blankQuestionOut]) =
        .error "MCQ #0 missing 'question' or it is not a string." :=
  ⟨rfl, rfl⟩

/-- C8 (amended): for every candidate list on which the validator succeeds
and whose returned records all keep a non-empty question, a second
application of the validator to the returned list succeeds and returns it
unchanged. -/
theorem mcq_C8_amended_idempotent (v : JsonValue) (out : List JsonValue)
    (h : _validate_mcq_list v = .ok out)
    (hq : out.all recordQuestionNonEmpty = true) :
    _validate_mcq_list (.arr out) = .ok out := by
  cases v with
  | arr items => exact validateItems_fixed items 0 out h hq 0
  | null => exact Except.noConfusion h
  | bool b => exact Except.noConfusion h
  | num l => exact Except.noConfusion h
  | str s => exact Except.noConfusion h
  | obj f => exact Except.noConfusion h

/-- Witness for the amended C8 at a concrete normalized output. -/
theorem mcq_C8_witness :
    _validate_mcq_list (.arr [cleanItem paddedItem]) = .ok [cleanItem paddedItem] :=
  mcq_C8_amended_idempotent (.arr [paddedItem]) [cleanItem paddedItem] rfl rfl

/-- C3 counterexample: a response that parses as JSON with a non-array top
level is NOT handed to the extraction strategy — here the greedy
first-bracket-to-last-bracket span holds a fully valid MCQ array that the
extraction strategy would recover, yet the attempt fails with the non-list
validation error instead of attempting extraction. -/
theorem mcq_C3_counterexample :
    json_loads wrappedArrayRaw = .ok wrappedParsed ∧
      isList wrappedParsed = false ∧
      extractionOutcome wrappedArrayRaw = .ok [wrappedArrayClean] ∧
      attemptOnce wrappedArrayRaw =
        .error "Validation failed: Top-level JSON is not a list." :=
  ⟨rfl, rfl, rfl, rfl⟩

/-- C3 (amended): the extraction strategy (greedy span from the first `[` to
the last `]`, parsed and handed to the validator) runs exactly when the
direct JSON parse raises a decode error; when the text parses as JSON whose
top level is not an array, no extraction is attempted and the attempt fails
with the non-list validation error. -/
theorem mcq_C3_amended_extraction_on_decode_error (raw : String) :
    (∀ e, json_loads raw = .error e → attemptOnce raw = extractionOutcome raw) ∧
    (∀ v, json_loads raw = .ok v → isList v = false →
      attemptOnce raw = .error "Validation failed: Top-level JSON is not a list.") := by
  constructor
  · intro e he
    simp [attemptOnce, he]
  · intro v hv hnl
    simp [attemptOnce, hv, hnl]

/-- Witness for the amended C3: a decode failure goes to extraction, a
non-array parse goes to the validation error. -/
theorem mcq_C3_witness :
    attemptOnce "oops" = extractionOutcome "oops" ∧
      attemptOnce wrappedArrayRaw =
        .error "Validation failed: Top-level JSON is not a list." :=
  ⟨(mcq_C3_amended_extraction_on_decode_error "oops").1 "Expecting value" rfl,
   (mcq_C3_amended_extraction_on_decode_error wrappedArrayRaw).2 wrappedParsed rfl rfl⟩

/-- The attempt loop returns the first success unchanged, having made one
API call per preceding failure plus the successful one. -/
theorem genLoop_first_success (client : String → Nat → Except String String)
    (prompt : String) (l : List JsonValue) :
    ∀ (s r attempt : Nat) (le : Option String), s < r →
      (∀ j, j < s → ∃ e, attemptOutcome (client prompt (attempt + j)) = .error e) →
      attemptOutcome (client prompt (attempt + s)) = .ok l →
      genLoop client prompt r attempt le = (.ok l, attempt + s + 1) := by
  intro s
  induction s with
  | zero =>
    intro r attempt le hr _ hsucc
    cases r with
    | zero => exact absurd hr (by omega)
    | succ r =>
      rw [Nat.add_zero] at hsucc
      simp only [genLoop, hsucc]
  | succ s ih =>
    intro r attempt le hr hfail hsucc
    cases r with
    | zero => exact absurd hr (by omega)
    | succ r =>
      obtain ⟨e, he⟩ := hfail 0 (by omega)
      rw [Nat.add_zero] at he
      have h2 : ∀ j, j < s →
          ∃ e2, attemptOutcome (client prompt (attempt + 1 + j)) = .error e2 := by
        intro j hj
        have h3 := hfail (j + 1) (by omega)
        rwa [show attempt + (j + 1) = attempt + 1 + j by omega] at h3
      have h4 : attemptOutcome (client prompt (attempt + 1 + s)) = .ok l := by
        rwa [show attempt + (s + 1) = attempt + 1 + s by omega] at hsucc
      have h5 := ih r (attempt + 1) (some e) (by omega) h2 h4
      have harith : attempt + 1 + s + 1 = attempt + (s + 1) + 1 := by omega
      simp only [genLoop, he, h5, harith]

/-- C5: on the first attempt whose parse-and-validate pipeline succeeds, the
orchestrator returns the validated list immediately, having made no further
API calls — even when the list is shorter than the requested count; no
count-matching is enforced. -/
theorem mcq_C5_first_success_returns (client : String → Nat → Except String String)
    (input : String) (numQ maxRetries k : Nat) (l : List JsonValue)
    (hk : k ≤ maxRetries)
    (hfail : ∀ j, j < k →
      ∃ e, attemptOutcome (client (buildPrompt numQ input) j) = .error e)
    (hsucc : attemptOutcome (client (buildPrompt numQ input) k) = .ok l)
    (hshort : l.length < numQ) :
    Question_mcqs_generator client input numQ maxRetries = (.ok l, k + 1) := by
  have h := genLoop_first_success client (buildPrompt numQ input) l k (maxRetries + 1) 0
    none (by omega) (by intro j hj; simpa using hfail j hj) (by simpa using hsucc)
  simpa [Question_mcqs_generator] using h

/-- Witness for C5: the first call fails with a transport error, the second
returns an empty array (shorter than the 3 requested), and the orchestrator
returns it after exactly two calls. -/
theorem mcq_C5_witness :
    Question_mcqs_generator flakyClient "txt" 3 1 = (.ok [], 2) :=
  mcq_C5_first_success_returns flakyClient "txt" 3 1 1 []
    (by omega)
    (by
      intro j hj
      have hj0 : j = 0 := by omega
      subst hj0
      exact ⟨"boom", rfl⟩)
    rfl
    (by decide)

/-- An always-failing client exhausts the loop: every remaining attempt is
consumed and the final message carries the last attempt's error. -/
theorem genLoop_all_fail (m : Nat → String) (prompt : String) :
    ∀ (r attempt : Nat) (le : Option String),
      genLoop (fun _ i => .error (m i)) prompt (r + 1) attempt le =
        (.error ("Failed to generate valid MCQs. Last error: " ++ m (attempt + r)),
          attempt + r + 1) := by
  intro r
  induction r with
  | zero =>
    intro attempt le
    simp [genLoop, attemptOutcome, renderLastErr]
  | succ r ih =>
    intro attempt le
    have harith : attempt + 1 + r = attempt + (r + 1) := by omega
    have h := ih (attempt + 1) (some (m attempt))
    rw [harith] at h
    have hstep : genLoop (fun _ i => .error (m i)) prompt (r + 1 + 1) attempt le =
        genLoop (fun _ i => .error (m i)) prompt (r + 1) (attempt + 1) (some (m attempt)) := rfl
    rw [hstep]
    exact h

/-- C6: with a generation client that fails on every call, the orchestrator
performs exactly `max_retries + 1` attempts and then fails with a single
aggregated message carrying the error of the final attempt (in particular,
with `max_retries = 0` exactly one attempt is made). -/
theorem mcq_C6_exhausts_attempts (m : Nat → String) (input : String)
    (numQ maxRetries : Nat) :
    Question_mcqs_generator (fun _ i => .error (m i)) input numQ maxRetries =
      (.error ("Failed to generate valid MCQs. Last error: " ++ m maxRetries),
        maxRetries + 1) := by
  have h := genLoop_all_fail m (buildPrompt numQ input) maxRetries 0 none
  simpa [Question_mcqs_generator] using h

/-- C10: the validator accepts the empty candidate list, and a raw response
of an empty JSON array makes the orchestrator succeed immediately with zero
records after a single attempt. -/
theorem mcq_C10_empty_list :
    _validate_mcq_list (.arr []) = .ok [] ∧
      Question_mcqs_generator (fun _ _ => .ok "[]") "text" 5 1 = (.ok [], 1) :=
  ⟨rfl, rfl⟩

/-- C7: when the response body is not parseable as JSON (and the status is a
success), the client returns the raw unparsed body text rather than failing;
and a transport-level `RuntimeError` arises only from a network error or a
non-success HTTP status. -/
theorem mcq_C7_client_fallback :
    (∀ (status : Nat) (body e : String), statusRaises status = false →
        json_loads body = .error e →
        call_perplexity_json (.ok (status, body)) = .ok body) ∧
    (∀ (resp : Except String (Nat × String)) (msg : String),
        call_perplexity_json resp = .runtimeError msg →
        (∃ e, resp = .error e) ∨
          (∃ status body, resp = .ok (status, body) ∧ statusRaises status = true)) := by
  constructor
  · intro status body e hs he
    simp [call_perplexity_json, hs, he]
  · intro resp msg h
    cases resp with
    | error e => exact .inl ⟨e, rfl⟩
    | ok p =>
      obtain ⟨status, body⟩ := p
      by_cases hs : statusRaises status = true
      · exact .inr ⟨status, body, rfl, hs⟩
      · exfalso
        rw [Bool.not_eq_true] at hs
        simp only [call_perplexity_json, hs, Bool.false_eq_true, if_false] at h
        split at h
        · exact ApiResult.noConfusion h
        · split at h <;> exact ApiResult.noConfusion h

/-- Witness for C7: a success-status response with a non-JSON body is
returned raw, and a network error is classified as such. -/
theorem mcq_C7_witness :
    call_perplexity_json (.ok (200, "oops")) = .ok "oops" ∧
      ((∃ e, (.error "connection refused" : Except String (Nat × String)) = .error e) ∨
        (∃ status body,
          (.error "connection refused" : Except String (Nat × String)) = .ok (status, body) ∧
            statusRaises status = true)) :=
  ⟨mcq_C7_client_fallback.1 200 "oops" "Expecting value" rfl rfl,
   mcq_C7_client_fallback.2 (.error "connection refused")
     "API request failed: connection refused" rfl⟩

/-- C9: the legacy delimited-block strategy (modelled from the spec) never
errors and never returns more records than there are blocks — incomplete
blocks are silently skipped — and on the concrete two-block input whose
second block lacks a `Correct Answer:` line it returns exactly the one
record of the first block. -/
theorem mcq_C9_legacy_skips :
    (∀ raw : String, (legacy_parse raw).length ≤ (strSplitOn legacyMarker raw).length) ∧
      legacy_parse legacySampleTwoBlocks =
        [⟨"What is 2+2?", "3", "4", "5", "6", "B"⟩] := by
  constructor
  · intro raw
    calc (legacy_parse raw).length
        ≤ ((strSplitOn legacyMarker raw).filter fun b => strNonEmpty (pyStrip b)).length :=
          List.length_filterMap_le _ _
      _ ≤ (strSplitOn legacyMarker raw).length := List.length_filter_le _ _
  · rfl

end App

